import Mathlib

/-!
Shallow embedding of the Monte Carlo option-pricing engine
(`src/monte_carlo/simulator.py`, `src/models/gbm.py`,
`src/analytics/confidence_intervals.py`).

Python floats are modelled as real numbers.  NumPy's process-wide random
generator is modelled by an explicit state `RNGState = (sid, pos)`: `sid`
identifies the last seeding of the generator (or the initial entropy) and
`pos` counts how many draws have been consumed since that seeding.  The
actual normal values produced by the generator are abstracted by a stream
`ns : Nat → Nat → ℝ`, mapping `(sid, index)` to the value of the
`index`-th draw after seeding `sid`; every theorem below is proved for an
arbitrary such stream, since the bit-level generator is not part of the
repository.  Python exceptions are modelled by `Except PyError`; the only
`raise` in the embedded code is the antithetic parity check, so every
other code path ends in `Except.ok`.  Each estimator returns its
result-or-error together with the global generator state after the call.
-/

/-- Python exception values raised by the embedded code.  The single
`raise` site in the source is `ValueError(...)` in
`monte_carlo_european_call_antithetic`. -/
inductive PyError where
  | valueError (msg : String) : PyError
deriving DecidableEq

/-- State of NumPy's process-wide random generator: which seeding it last
received (`sid`) and how many draws have been consumed since (`pos`). -/
structure RNGState where
  sid : Nat
  pos : Nat
deriving DecidableEq

/-- Abstract stream of standard-normal values: `ns sid i` is the `i`-th
draw produced after the generator was seeded with `sid`. -/
def NormalStream : Type := Nat → Nat → ℝ

/-- `np.random.seed(s)`: resets the global generator deterministically
from the seed, discarding the previous state. -/
def np_random_seed (s : Nat) (_sigma : RNGState) : RNGState := ⟨s, 0⟩

/-- `np.random.standard_normal(n)`: returns the next `n` values of the
stream and advances the global position by `n`. -/
def np_standard_normal (ns : NormalStream) (n : Nat) (g : RNGState) :
    List ℝ × RNGState :=
  ((List.range n).map (fun i => ns g.sid (g.pos + i)), ⟨g.sid, g.pos + n⟩)

/-- The idiom `if seed is not None: np.random.seed(seed)` that each
simulator function inlines before drawing. -/
def seed_global (seed : Option Nat) (g : RNGState) : RNGState :=
  match seed with
  | some s => np_random_seed s g
  | none => g

/-- `generate_standard_normals(n_paths, seed)` from
`src/monte_carlo/simulator.py`. -/
def generate_standard_normals (ns : NormalStream) (n_paths : Nat)
    (seed : Option Nat) (g : RNGState) : List ℝ × RNGState :=
  np_standard_normal ns n_paths (seed_global seed g)

/-- `gbm_terminal_price(S0, mu, sigma, T, Z)` from `src/models/gbm.py`:
`S0 * exp((mu - 0.5 * sigma**2) * T + sigma * sqrt(T) * Z)`, elementwise
over `Z`. -/
noncomputable def gbm_terminal_price (S0 mu sigma T : ℝ) (Z : List ℝ) :
    List ℝ :=
  Z.map (fun z => S0 * Real.exp ((mu - 0.5 * sigma ^ 2) * T + sigma * Real.sqrt T * z))

/-- `np.mean` / `.mean()` on a 1-d array: sum divided by length. -/
noncomputable def npMean (xs : List ℝ) : ℝ := xs.sum / xs.length

/-- `np.var(Y, ddof=1)`: mean-removed sum of squares divided by `n - 1`
(the subtraction is on floats, so `n - 1` is `-1` for the empty array). -/
noncomputable def np_var_ddof1 (Y : List ℝ) : ℝ :=
  (Y.map (fun y => (y - npMean Y) ^ 2)).sum / ((Y.length : ℝ) - 1)

/-- `np.cov(X, Y, ddof=1)[0, 1]`: the off-diagonal entry of the 2x2
sample covariance matrix, `sum((X - mean X) * (Y - mean Y)) / (n - 1)`. -/
noncomputable def np_cov_offdiag (X Y : List ℝ) : ℝ :=
  (List.zipWith (fun a b => a * b)
      (X.map (fun a => a - npMean X)) (Y.map (fun b => b - npMean Y))).sum
    / ((X.length : ℝ) - 1)

/-- `np.std(xs, ddof=1)`: square root of the unbiased sample variance. -/
noncomputable def np_std_ddof1 (xs : List ℝ) : ℝ :=
  Real.sqrt (np_var_ddof1 xs)

/-- `monte_carlo_european_call(S0, K, r, sigma, T, n_paths, seed)` from
`src/monte_carlo/simulator.py`.  The body performs no parameter
validation: it seeds (when a seed is given), draws `n_paths` normals,
applies `gbm_terminal_price` with drift `r`, takes the call payoff
`np.maximum(ST - K, 0.0)` and returns the discounted mean. -/
noncomputable def monte_carlo_european_call (ns : NormalStream)
    (S0 K r sigma T : ℝ) (n_paths : Nat) (seed : Option Nat)
    (g : RNGState) : Except PyError ℝ × RNGState :=
  let g1 := seed_global seed g
  let ZS := np_standard_normal ns n_paths g1
  let ST := gbm_terminal_price S0 r sigma T ZS.1
  let payoff := ST.map (fun x => max (x - K) 0)
  (Except.ok (Real.exp (-r * T) * npMean payoff), ZS.2)

/-- `monte_carlo_european_call_antithetic(...)` from
`src/monte_carlo/simulator.py`: raises `ValueError` when `n_paths` is
odd (before seeding or drawing anything), otherwise draws
`half = n_paths // 2` normals `Z`, concatenates `[Z, -Z]` and proceeds
as the plain estimator on the combined vector. -/
noncomputable def monte_carlo_european_call_antithetic (ns : NormalStream)
    (S0 K r sigma T : ℝ) (n_paths : Nat) (seed : Option Nat)
    (g : RNGState) : Except PyError ℝ × RNGState :=
  if n_paths % 2 ≠ 0 then
    (Except.error (PyError.valueError "n_paths must be even for antithetic variates."), g)
  else
    let g1 := seed_global seed g
    let half := n_paths / 2
    let ZS := np_standard_normal ns half g1
    let Z_all := ZS.1 ++ ZS.1.map (fun z => -z)
    let ST := gbm_terminal_price S0 r sigma T Z_all
    let payoff := ST.map (fun x => max (x - K) 0)
    (Except.ok (Real.exp (-r * T) * npMean payoff), ZS.2)

/-- `monte_carlo_european_call_control_variate(...)` from
`src/monte_carlo/simulator.py`: draws `n_paths` normals, forms the
discounted payoff `X`, the discounted terminal price `Y` with known
expectation `EY = S0`, sets `beta = cov / var` when `var > 0` and `0.0`
otherwise, and returns the mean of `X + beta * (EY - Y)`. -/
noncomputable def monte_carlo_european_call_control_variate
    (ns : NormalStream) (S0 K r sigma T : ℝ) (n_paths : Nat)
    (seed : Option Nat) (g : RNGState) : Except PyError ℝ × RNGState :=
  let g1 := seed_global seed g
  let ZS := np_standard_normal ns n_paths g1
  let ST := gbm_terminal_price S0 r sigma T ZS.1
  let X := ST.map (fun st => Real.exp (-r * T) * max (st - K) 0)
  let Y := ST.map (fun st => Real.exp (-r * T) * st)
  let EY := S0
  let cov := np_cov_offdiag X Y
  let var := np_var_ddof1 Y
  let beta := if var > 0 then cov / var else 0
  let X_cv := List.zipWith (fun x y => x + beta * (EY - y)) X Y
  (Except.ok (npMean X_cv), ZS.2)

/-- `confidence_interval(samples, alpha=0.05)` from
`src/analytics/confidence_intervals.py`: returns
`(mean, mean - margin, mean + margin)` with `margin = 1.96 * std / sqrt(n)`.
The body never raises and never reads `alpha`. -/
noncomputable def confidence_interval (samples : List ℝ) (alpha : ℝ) :
    Except PyError (ℝ × ℝ × ℝ) :=
  let mean := npMean samples
  let std := np_std_ddof1 samples
  let n := samples.length
  let z : ℝ := 1.96
  let margin := z * std / Real.sqrt n
  Except.ok (mean, mean - margin, mean + margin)

/-- The discounted mean call payoff of a given draw vector: the value the
plain estimator computes once its draws are fixed. -/
noncomputable def discounted_mean_call_payoff (S0 K r sigma T : ℝ)
    (Z : List ℝ) : ℝ :=
  Real.exp (-r * T) *
    npMean ((gbm_terminal_price S0 r sigma T Z).map (fun x => max (x - K) 0))

/-- Modelled from the spec's words for the control-variate coefficient:
the unbiased sample covariance of `X` and `Y`, dividing by `n_paths - 1`. -/
noncomputable def spec_unbiased_cov (X Y : List ℝ) : ℝ :=
  (List.zipWith (fun a b => (a - npMean X) * (b - npMean Y)) X Y).sum
    / ((X.length : ℝ) - 1)

/-- Modelled from the spec's words: the unbiased sample variance of `Y`,
dividing by `n_paths - 1`. -/
noncomputable def spec_unbiased_var (Y : List ℝ) : ℝ :=
  (Y.map (fun y => (y - npMean Y) ^ 2)).sum / ((Y.length : ℝ) - 1)

/-! Theorems settling the claims. -/

/-- C10: `confidence_interval` never reads its `alpha` argument — the
critical value is the fixed constant `1.96` — so its result is the same
for any two significance levels. -/
theorem confidence_interval_ignores_alpha (samples : List ℝ) (a1 a2 : ℝ) :
    confidence_interval samples a1 = confidence_interval samples a2 := rfl

/-- C2, counterexample: on a single-element SampleSet,
`confidence_interval` does not fail with `InsufficientSamples` — the
source has no sample-count check and no raise site at all, so the call
returns a `ConfidenceResult` triple. -/
theorem confidence_interval_singleton_returns_ok :
    (confidence_interval [1] 0.05).isOk = true := rfl

/-- C2, amended: `confidence_interval` performs no sample-count check;
on every SampleSet with fewer than 2 elements (empty or singleton) it
still returns a `ConfidenceResult` triple rather than failing (in the
original floating-point code the triple is NaN-valued there). -/
theorem confidence_interval_no_sample_count_check (samples : List ℝ)
    (alpha : ℝ) (h : samples.length < 2) :
    (confidence_interval samples alpha).isOk = true := rfl

/-- Witness for `confidence_interval_no_sample_count_check` at the empty
SampleSet. -/
theorem confidence_interval_no_sample_count_check_witness :
    (confidence_interval [] 0).isOk = true :=
  confidence_interval_no_sample_count_check [] 0 (by decide)

/-- C1, counterexample: the plain estimator called with the invalid
volatility `sigma = -1` (and valid `T = 1`, `n_paths = 2`) does not fail
with a `ValidationError`: no estimator validates contract parameters, so
the call computes and returns a price. -/
theorem plain_call_invalid_sigma_returns_ok :
    (monte_carlo_european_call (fun _ _ => 0) 100 100 0 (-1) 1 2 (some 0)
        ⟨0, 0⟩).1.isOk = true := rfl

/-- C1, amended: no estimator validates the contract parameters — for
every `sigma`, `T` (including `sigma ≤ 0` and `T ≤ 0`) and every
`n_paths`, the plain and control-variate estimators return a computed
value and never an error, and so does the antithetic estimator whenever
`n_paths` is even; each failure or result is produced by the single
evaluation of the call (no retry). -/
theorem estimators_skip_contract_validation (ns : NormalStream)
    (S0 K r sigma T : ℝ) (n : Nat) (seed : Option Nat) (g : RNGState)
    (h : n % 2 = 0) :
    (monte_carlo_european_call ns S0 K r sigma T n seed g).1.isOk = true
    ∧ (monte_carlo_european_call_control_variate ns S0 K r sigma T n seed
        g).1.isOk = true
    ∧ (monte_carlo_european_call_antithetic ns S0 K r sigma T n seed
        g).1.isOk = true := by
  refine ⟨rfl, rfl, ?_⟩
  rw [monte_carlo_european_call_antithetic, if_neg (by omega : ¬n % 2 ≠ 0)]
  rfl

/-- Witness for `estimators_skip_contract_validation` at the invalid
contract `sigma = -1`, `T = 0` with `n_paths = 2`. -/
theorem estimators_skip_contract_validation_witness :
    (monte_carlo_european_call (fun _ _ => 0) 1 1 0 (-1) 0 2 none
        ⟨0, 0⟩).1.isOk = true
    ∧ (monte_carlo_european_call_control_variate (fun _ _ => 0) 1 1 0 (-1) 0 2
        none ⟨0, 0⟩).1.isOk = true
    ∧ (monte_carlo_european_call_antithetic (fun _ _ => 0) 1 1 0 (-1) 0 2 none
        ⟨0, 0⟩).1.isOk = true :=
  estimators_skip_contract_validation (fun _ _ => 0) 1 1 0 (-1) 0 2 none
    ⟨0, 0⟩ (by decide)

/-- C6: for every odd `n_paths` the antithetic estimator raises
`ValueError` (the code's realization of the spec's `InvalidRequest`)
immediately: the error is returned to the caller and the global
generator state is untouched — no seeding and no draw happened. -/
theorem antithetic_odd_paths_value_error (ns : NormalStream)
    (S0 K r sigma T : ℝ) (n : Nat) (seed : Option Nat) (g : RNGState)
    (h : n % 2 = 1) :
    monte_carlo_european_call_antithetic ns S0 K r sigma T n seed g =
      (Except.error
        (PyError.valueError "n_paths must be even for antithetic variates."),
       g) := by
  simp [monte_carlo_european_call_antithetic, h]

/-- Witness for `antithetic_odd_paths_value_error` at `n_paths = 1`. -/
theorem antithetic_odd_paths_value_error_witness :
    monte_carlo_european_call_antithetic (fun _ _ => 0) 100 100 0 1 1 1
        (some 0) ⟨0, 0⟩ =
      (Except.error
        (PyError.valueError "n_paths must be even for antithetic variates."),
       (⟨0, 0⟩ : RNGState)) :=
  antithetic_odd_paths_value_error (fun _ _ => 0) 100 100 0 1 1 1 (some 0)
    ⟨0, 0⟩ (by decide)

/-- C3, counterexample: a seeded draw does mutate the process-wide
generator state: starting from global state `(0, 0)`, a call of
`generate_standard_normals` with seed `5` leaves the generator in state
`(5, 1) ≠ (0, 0)`, and the mutation is observable outside the call — a
subsequent unseeded draw now returns different values than it would have
returned without the seeded call (stream `fun sid i => sid` shown). -/
theorem seeded_draw_mutates_global_state :
    ((generate_standard_normals (fun sid _ => (sid : ℝ)) 1 (some 5)
        ⟨0, 0⟩).2 ≠ ⟨0, 0⟩)
    ∧ (np_standard_normal (fun sid _ => (sid : ℝ)) 1
          (generate_standard_normals (fun sid _ => (sid : ℝ)) 1 (some 5)
            ⟨0, 0⟩).2).1
        ≠ (np_standard_normal (fun sid _ => (sid : ℝ)) 1
            (⟨0, 0⟩ : RNGState)).1 := by
  constructor
  · decide
  · simp [generate_standard_normals, np_standard_normal, np_random_seed,
      seed_global]

/-- C3, amended: the seeded draw resets the global generator to a state
determined by the seed alone and advances it by the number of draws —
mutating shared state observably (see the counterexample) — but the
mutation cannot affect future calls that provide their own seed: a
seeded call's output and resulting state are independent of the prior
global state. -/
theorem seeded_draw_independent_of_prior_state (ns : NormalStream)
    (n s : Nat) (g1 g2 : RNGState) :
    generate_standard_normals ns n (some s) g1 =
      generate_standard_normals ns n (some s) g2
    ∧ (generate_standard_normals ns n (some s) g1).2 = ⟨s, n⟩ := by
  refine ⟨rfl, ?_⟩
  simp [generate_standard_normals, np_standard_normal, np_random_seed,
    seed_global]

/-- C7: the plain estimator with a provided seed is deterministic — its
entire result (price and final generator state) is a function of the
call's explicit inputs and is independent of the incoming global
generator state, so two calls with identical `(contract, n_paths, seed)`
return identical results. -/
theorem plain_call_deterministic_for_fixed_seed (ns : NormalStream)
    (S0 K r sigma T : ℝ) (n s : Nat) (g1 g2 : RNGState)
    (hsigma : 0 < sigma) (hT : 0 < T) :
    monte_carlo_european_call ns S0 K r sigma T n (some s) g1 =
      monte_carlo_european_call ns S0 K r sigma T n (some s) g2 := rfl

/-- Witness for `plain_call_deterministic_for_fixed_seed` at a valid
contract and two different prior generator states. -/
theorem plain_call_deterministic_for_fixed_seed_witness :
    monte_carlo_european_call (fun _ _ => 0) 100 100 0 1 1 2 (some 0)
        ⟨0, 0⟩ =
      monte_carlo_european_call (fun _ _ => 0) 100 100 0 1 1 2 (some 0)
        ⟨3, 7⟩ :=
  plain_call_deterministic_for_fixed_seed (fun _ _ => 0) 100 100 0 1 1 2 0
    ⟨0, 0⟩ ⟨3, 7⟩ one_pos one_pos

/-- C8: on any SampleSet with at least 2 elements, `confidence_interval`
returns `(m, m - margin, m + margin)` with `m` the sample mean and
`margin = 1.96 * s / sqrt n` for the unbiased (`ddof=1`) sample standard
deviation `s`, and the interval brackets the mean:
`lower ≤ mean ≤ upper`. -/
theorem confidence_interval_brackets_mean (samples : List ℝ) (alpha : ℝ)
    (h : 2 ≤ samples.length) :
    confidence_interval samples alpha =
      Except.ok (npMean samples,
        npMean samples
          - 1.96 * np_std_ddof1 samples / Real.sqrt (samples.length : ℝ),
        npMean samples
          + 1.96 * np_std_ddof1 samples / Real.sqrt (samples.length : ℝ))
    ∧ npMean samples - 1.96 * np_std_ddof1 samples
        / Real.sqrt (samples.length : ℝ) ≤ npMean samples
    ∧ npMean samples ≤ npMean samples
        + 1.96 * np_std_ddof1 samples / Real.sqrt (samples.length : ℝ) := by
  have hm : 0 ≤ 1.96 * np_std_ddof1 samples / Real.sqrt (samples.length : ℝ) := by
    apply div_nonneg
    · exact mul_nonneg (by norm_num) (Real.sqrt_nonneg _)
    · exact Real.sqrt_nonneg _
  exact ⟨rfl, by linarith, by linarith⟩

/-- Witness for `confidence_interval_brackets_mean` at the two-element
SampleSet `[0, 2]`. -/
theorem confidence_interval_brackets_mean_witness :
    confidence_interval [0, 2] 0.05 =
      Except.ok (npMean [0, 2],
        npMean [0, 2]
          - 1.96 * np_std_ddof1 [0, 2] / Real.sqrt (([0, 2] : List ℝ).length : ℝ),
        npMean [0, 2]
          + 1.96 * np_std_ddof1 [0, 2] / Real.sqrt (([0, 2] : List ℝ).length : ℝ))
    ∧ npMean [0, 2] - 1.96 * np_std_ddof1 [0, 2]
        / Real.sqrt (([0, 2] : List ℝ).length : ℝ) ≤ npMean [0, 2]
    ∧ npMean [0, 2] ≤ npMean [0, 2]
        + 1.96 * np_std_ddof1 [0, 2] / Real.sqrt (([0, 2] : List ℝ).length : ℝ) :=
  confidence_interval_brackets_mean [0, 2] 0.05 (by decide)

/-- C9: `gbm_terminal_price` is elementwise — the result has the same
length as `Z` and its `i`-th element is
`S0 * exp((mu - 0.5 * sigma^2) * T + sigma * sqrt T * Z[i])`; as a plain
function of its arguments it is pure and has no side effects. -/
theorem gbm_terminal_price_elementwise (S0 mu sigma T : ℝ) (Z : List ℝ)
    (i : Nat) (h : i < Z.length) :
    (gbm_terminal_price S0 mu sigma T Z).length = Z.length
    ∧ (gbm_terminal_price S0 mu sigma T Z).getD i 0 =
        S0 * Real.exp ((mu - 0.5 * sigma ^ 2) * T
          + sigma * Real.sqrt T * Z.getD i 0) := by
  constructor
  · simp [gbm_terminal_price]
  · simp [gbm_terminal_price, List.getElem?_eq_getElem h]

/-- Witness for `gbm_terminal_price_elementwise` at `Z = [0]`, `i = 0`. -/
theorem gbm_terminal_price_elementwise_witness :
    (gbm_terminal_price 1 0 1 1 [0]).length = ([0] : List ℝ).length
    ∧ (gbm_terminal_price 1 0 1 1 [0]).getD 0 0 =
        1 * Real.exp ((0 - 0.5 * 1 ^ 2) * 1
          + 1 * Real.sqrt 1 * ([0] : List ℝ).getD 0 0) :=
  gbm_terminal_price_elementwise 1 0 1 1 [0] 0 (by decide)

/-- Reading a list back elementwise: mapping `getD` over the range of a
list's length reproduces the list. -/
theorem list_map_getD_range (l : List ℝ) :
    (List.range l.length).map (fun i => l.getD i 0) = l := by
  induction l with
  | nil => rfl
  | cons a t ih =>
    rw [List.length_cons, List.range_succ_eq_map, List.map_cons, List.map_map]
    simp only [Function.comp_def, Nat.succ_eq_add_one, List.getD_cons_zero,
      List.getD_cons_succ]
    rw [ih]

/-- The half draw the antithetic estimator makes: `n_paths / 2` values
from the freshly seeded generator. -/
def half_draw (ns : NormalStream) (n s : Nat) (g : RNGState) : List ℝ :=
  (np_standard_normal ns (n / 2) (np_random_seed s g)).1

/-- The paired vector `[Z, -Z]` formed from a single half draw. -/
def antithetic_pair (Z : List ℝ) : List ℝ := Z ++ Z.map (fun z => -z)

/-- C5: for every even `n_paths` and provided seed, the antithetic
estimator draws exactly `n_paths / 2` normals (the final generator
position is `n_paths / 2`), forms the paired vector `[Z, -Z]` of length
`n_paths` by negating that same half draw, and returns the discounted
mean call payoff of the combined vector — the same value the plain
estimator computes when its `n_paths` draws are that combined vector. -/
theorem antithetic_pairs_single_half_draw (ns : NormalStream)
    (S0 K r sigma T : ℝ) (n s : Nat) (g : RNGState) (h : n % 2 = 0) :
    monte_carlo_european_call_antithetic ns S0 K r sigma T n (some s) g =
      (Except.ok (discounted_mean_call_payoff S0 K r sigma T
          (antithetic_pair (half_draw ns n s g))), ⟨s, n / 2⟩)
    ∧ (antithetic_pair (half_draw ns n s g)).length = n
    ∧ (monte_carlo_european_call
         (fun _ i => (antithetic_pair (half_draw ns n s g)).getD i 0)
         S0 K r sigma T n (some s) g).1 =
        Except.ok (discounted_mean_call_payoff S0 K r sigma T
          (antithetic_pair (half_draw ns n s g))) := by
  have hlen : (antithetic_pair (half_draw ns n s g)).length = n := by
    simp [antithetic_pair, half_draw, np_standard_normal]
    omega
  refine ⟨?_, hlen, ?_⟩
  · rw [monte_carlo_european_call_antithetic, if_neg (by omega : ¬n % 2 ≠ 0)]
    simp [seed_global, np_standard_normal, np_random_seed, half_draw,
      antithetic_pair, discounted_mean_call_payoff]
  · have hd : (List.range n).map
        (fun i => (antithetic_pair (half_draw ns n s g)).getD (0 + i) 0)
        = antithetic_pair (half_draw ns n s g) := by
      have h2 := list_map_getD_range (antithetic_pair (half_draw ns n s g))
      rw [hlen] at h2
      simpa [Nat.zero_add] using h2
    simp only [monte_carlo_european_call, seed_global, np_standard_normal,
      np_random_seed]
    rw [hd]
    rfl

/-- Witness for `antithetic_pairs_single_half_draw` at `n_paths = 2`,
seed `0`. -/
theorem antithetic_pairs_single_half_draw_witness :
    monte_carlo_european_call_antithetic (fun _ _ => 0) 1 1 0 1 1 2 (some 0)
        ⟨0, 0⟩ =
      (Except.ok (discounted_mean_call_payoff 1 1 0 1 1
          (antithetic_pair (half_draw (fun _ _ => 0) 2 0 ⟨0, 0⟩))),
       ⟨0, 2 / 2⟩)
    ∧ (antithetic_pair (half_draw (fun _ _ => 0) 2 0 ⟨0, 0⟩)).length = 2
    ∧ (monte_carlo_european_call
         (fun _ i =>
           (antithetic_pair (half_draw (fun _ _ => 0) 2 0 ⟨0, 0⟩)).getD i 0)
         1 1 0 1 1 2 (some 0) ⟨0, 0⟩).1 =
        Except.ok (discounted_mean_call_payoff 1 1 0 1 1
          (antithetic_pair (half_draw (fun _ _ => 0) 2 0 ⟨0, 0⟩))) :=
  antithetic_pairs_single_half_draw (fun _ _ => 0) 1 1 0 1 1 2 0 ⟨0, 0⟩
    (by decide)

/-- C4: the control-variate estimator never fails, and its value is the
mean of `X + beta * (S0 - Y)` where `X` is the discounted payoff, `Y`
the discounted terminal price, and `beta` is the spec's coefficient
`Cov(X,Y) / Var(Y)` formed from the unbiased (`n_paths - 1` denominator)
sample covariance and variance, falling back to `beta = 0` whenever
`Var(Y)` is not strictly positive (so no division error can arise). -/
theorem control_variate_beta_formula (ns : NormalStream)
    (S0 K r sigma T : ℝ) (n : Nat) (seed : Option Nat) (g : RNGState) :
    (monte_carlo_european_call_control_variate ns S0 K r sigma T n seed
        g).1 =
      (let Z := (np_standard_normal ns n (seed_global seed g)).1
       let ST := gbm_terminal_price S0 r sigma T Z
       let X := ST.map (fun st => Real.exp (-r * T) * max (st - K) 0)
       let Y := ST.map (fun st => Real.exp (-r * T) * st)
       let beta := if spec_unbiased_var Y > 0
                   then spec_unbiased_cov X Y / spec_unbiased_var Y else 0
       Except.ok (npMean (List.zipWith (fun x y => x + beta * (S0 - y)) X Y))) := by
  have hc : ∀ X Y : List ℝ, np_cov_offdiag X Y = spec_unbiased_cov X Y := by
    intro X Y
    rw [np_cov_offdiag, spec_unbiased_cov, List.zipWith_map]
  have hv : ∀ Y : List ℝ, np_var_ddof1 Y = spec_unbiased_var Y :=
    fun _ => rfl
  simp only [monte_carlo_european_call_control_variate]
  rw [hc, hv]
